import Mathlib

/-!
Shallow embedding of the dogfoodtimer repository (`code.py` and
`freezer_timer.py`) and verification of its specification.

Times are modelled as rationals (`ℚ`): Python timestamps are integers,
but the alarm's escalation interval is halved with true division, so the
alarm bookkeeping fields can hold non-integral values.  Every call of
`time.monotonic` inside one loop iteration is modelled as returning the
same tick timestamp `now`.

The hardware collaborators (accelerometer, NeoPixels, tone generator,
buttons, slide switch) are modelled as explicit inputs and outputs of the
state-transition functions.
-/

/-- Lid orientation constants `Lid.RAISED = 1` and `Lid.LOWERED = 2`. -/
inductive LidState where
  | RAISED
  | LOWERED
deriving DecidableEq

/-- Debounce state of a `Lid` object: `self.state`, the pair
`(self.pending_state, self.pending_time)` (always assigned and cleared
together in the source), and the one-shot `self.new_state` edge.  `None`
is modelled by `Option.none`. -/
structure LidS where
  state : Option LidState
  pending : Option (LidState × ℚ)
  newState : Option LidState
deriving DecidableEq

/-!
Batteries marks `Rat.add`, `Rat.sub`, `Rat.mul`, `Rat.div` and `Rat.inv`
`@[irreducible]`, which prevents `decide` from evaluating states of the
model on concrete inputs.  The model therefore uses the kernel-reducible
wrappers below, each proven equal to the corresponding standard
operation, so that lemmas about `+`, `-`, `/`, `max` and `|·|` apply.
-/

/-- Kernel-reducible addition on `ℚ`. -/
def qadd (a b : ℚ) : ℚ :=
  mkRat (a.num * b.den + b.num * a.den) (a.den * b.den)

/-- `qadd` is addition. -/
theorem qadd_eq (a b : ℚ) : qadd a b = a + b :=
  (Rat.add_def' a b).symm

/-- Kernel-reducible subtraction on `ℚ`. -/
def qsub (a b : ℚ) : ℚ :=
  mkRat (a.num * b.den - b.num * a.den) (a.den * b.den)

/-- `qsub` is subtraction. -/
theorem qsub_eq (a b : ℚ) : qsub a b = a - b :=
  (Rat.sub_def' a b).symm

/-- Kernel-reducible halving on `ℚ` (the only division the source
performs is `self.audible_alarm_interval_ms / 2`). -/
def qhalf (a : ℚ) : ℚ :=
  mkRat a.num (a.den * 2)

/-- `qhalf` is division by two. -/
theorem qhalf_eq (a : ℚ) : qhalf a = a / 2 := by
  rw [qhalf, Rat.mkRat_eq_div]
  push_cast
  rw [div_mul_eq_div_div, Rat.num_div_den]

/-- Python's builtin `abs` on a rational value (kernel-reducible, unlike
Mathlib's lattice-derived `|·|`). -/
def rabs (a : ℚ) : ℚ :=
  if a < 0 then -a else a

/-- `rabs` is the absolute value. -/
theorem rabs_eq (a : ℚ) : rabs a = |a| := by
  by_cases h : a < 0 <;> simp [rabs, h, abs_of_neg, abs_of_nonneg, le_of_not_lt]

/-- Python's builtin two-argument `max` (kernel-reducible). -/
def rmax (a b : ℚ) : ℚ :=
  if a ≤ b then b else a

/-- `rmax` is Mathlib's `max`. -/
theorem rmax_eq_max (a b : ℚ) : rmax a b = max a b := by
  by_cases h : a ≤ b <;> simp [rmax, max_def, h]

/-- Instantaneous classification of one accelerometer sample
(`x, y, z = [abs(g) for g in cp.acceleration]`;
`raised = z < 4 and x + y > 4`; `lowered = z >= 4 and x + y <= 4`;
anything else is the indeterminate branch, modelled as `none`). -/
def classify (gx gy gz : ℚ) : Option LidState :=
  let x := rabs gx
  let y := rabs gy
  let z := rabs gz
  if z < 4 ∧ qadd x y > 4 then some .RAISED
  else if z ≥ 4 ∧ qadd x y ≤ 4 then some .LOWERED
  else none

/-- Debounce threshold `self.debounce_threshold_ms = 100` (identical in
both source files). -/
def debounce_threshold_ms : ℚ := 100

/-- The common debounce step of `Lid.update_state`, shared verbatim by
`code.py` and `freezer_timer.py`, for a determinate classification `cur`:

* `cur == self.state`: clear the pending candidate;
* `cur == self.pending_state` held for at least the debounce window:
  promote the candidate and record the one-shot `new_state` edge;
* otherwise: replace the candidate and record its first-seen time. -/
def updateStateCore (l : LidS) (cur : LidState) (now : ℚ) : LidS :=
  if l.state = some cur then
    { l with pending := none }
  else
    match l.pending with
    | some (p, pt) =>
      if p = cur then
        if qsub now pt ≥ debounce_threshold_ms then
          { state := some cur, pending := none, newState := some cur }
        else
          l
      else
        { l with pending := some (cur, now) }
    | none => { l with pending := some (cur, now) }

namespace Code

/-- The `Lid.update_state` of `code.py`.  Its indeterminate branch
executes `self.update_times.add(self.now() - start)` where `start` is
undefined (its assignment on the previous line is commented out), so the
branch raises `NameError` before mutating anything; this is modelled as
`Except.error ()`. -/
def Lid.update_state (l : LidS) (gx gy gz now : ℚ) : Except Unit LidS :=
  match classify gx gy gz with
  | none => .error ()
  | some cur => .ok (updateStateCore l cur now)

/-- The `Lid.__call__` of `code.py`: run `update_state`, consume the
one-shot `new_state` edge, and return whether it equals `RAISED`.  An
exception from `update_state` propagates. -/
def Lid.call (l : LidS) (gx gy gz now : ℚ) : Except Unit (Bool × LidS) :=
  match Lid.update_state l gx gy gz now with
  | .error e => .error e
  | .ok l' => .ok (decide (l'.newState = some .RAISED), { l' with newState := none })

/-- The `Lid.raised` property: `self.state == self.RAISED`. -/
def Lid.raised (l : LidS) : Bool :=
  decide (l.state = some LidState.RAISED)

/-- The `Lid.lowered` property: `self.state == self.LOWERED`. -/
def Lid.lowered (l : LidS) : Bool :=
  decide (l.state = some LidState.LOWERED)

/-- Initial lid state from `Lid.__init__`. -/
def Lid.init : LidS :=
  { state := none, pending := none, newState := none }

end Code

namespace Freezer

/-- The `Lid.update_state` of `freezer_timer.py`: identical to the
`code.py` version except that the indeterminate branch is a plain
`return` (a genuine no-op). -/
def Lid.update_state (l : LidS) (gx gy gz now : ℚ) : LidS :=
  match classify gx gy gz with
  | none => l
  | some cur => updateStateCore l cur now

/-- The `Lid.__call__(self, trigger=RAISED)` of `freezer_timer.py`. -/
def Lid.call (l : LidS) (gx gy gz now : ℚ) (trigger : LidState) : Bool × LidS :=
  let l' := Lid.update_state l gx gy gz now
  (decide (l'.newState = some trigger), { l' with newState := none })

end Freezer

/-- The only indicator colors `code.py` ever passes to `Timer.set_color`
(keys of the `colors` dictionary; the name-to-RGB mapping is bijective, so
colors are modelled by name). -/
inductive Color where
  | green
  | yellow
  | red
  | off
deriving DecidableEq

/-- Audio files played with `cp.play_file` in `code.py`. -/
inductive Sound where
  | undoWav
  | snoozeWav
deriving DecidableEq

namespace Code

/-- `Timer.set_color`: translate a known name to its RGB value and update
`self.color`, skipping the pixel write when the color is unchanged. -/
def set_color (c : Option Color) (n : Color) : Option Color :=
  if c = some n then c else some n

/-- `Alarm.visible_alarm_interval_ms = 1000`. -/
def visible_alarm_interval_ms : ℚ := 1000

/-- `Alarm.audible_alarm_interval_max_ms = 3600 * 1000`. -/
def audible_alarm_interval_max_ms : ℚ := 3600000

/-- `Alarm.audible_alarm_interval_min_ms = 60 * 1000`. -/
def audible_alarm_interval_min_ms : ℚ := 60000

/-- `Alarm.beep_on_time_ms = 600`. -/
def beep_on_time_ms : ℚ := 600

/-- `Alarm.beep_off_time_ms = 1000`. -/
def beep_off_time_ms : ℚ := 1000

/-- `Alarm.n_beeps = 3`. -/
def n_beeps : ℕ := 3

/-- State of an `Alarm` object in `code.py`.  `trigger_count` is
instrumentation counting the invocations of `Alarm.trigger`; no source
behavior depends on it. -/
structure AlarmS where
  alarm_state : Bool
  led_state : Bool
  next_visible_alarm_time_ms : ℚ
  next_audible_alarm_time_ms : ℚ
  audible_alarm_interval_ms : ℚ
  beep_state : Bool
  actually_beeping : Bool
  next_beep_update_time_ms : ℚ
  beep_num : ℕ
  trigger_count : ℕ
deriving DecidableEq

/-- `Alarm.beep_set(self, state)`.  `switch` is `cp.switch` (the hardware
mute), `tone` is whether the tone generator is currently sounding
(`cp.start_tone` turns it on, `cp.stop_tone` turns it off); the updated
alarm state and tone channel are returned. -/
def Alarm.beep_set (a : AlarmS) (switch tone b : Bool) : AlarmS × Bool :=
  if b ≠ a.beep_state then
    if b then
      if ¬switch then
        ({ a with actually_beeping := true, beep_state := b }, true)
      else
        ({ a with beep_state := b }, tone)
    else if a.actually_beeping then
      ({ a with actually_beeping := false, beep_state := b }, false)
    else
      ({ a with beep_state := b }, tone)
  else
    (a, tone)

/-- `Alarm.reset`: restore the canonical off snapshot, then call
`beep_set(False)`.  Note the source clears `beep_state` and
`actually_beeping` before that call. -/
def Alarm.reset (a : AlarmS) (switch tone : Bool) : AlarmS × Bool :=
  let a := { a with
    alarm_state := false
    led_state := true
    next_visible_alarm_time_ms := 0
    next_audible_alarm_time_ms := 0
    audible_alarm_interval_ms := audible_alarm_interval_max_ms
    beep_state := false
    actually_beeping := false
    next_beep_update_time_ms := 0
    beep_num := 0 }
  Alarm.beep_set a switch tone false

/-- `Alarm.trigger`. -/
def Alarm.trigger (a : AlarmS) (now : ℚ) : AlarmS :=
  { a with
    alarm_state := true
    next_visible_alarm_time_ms := now
    next_audible_alarm_time_ms := now
    trigger_count := a.trigger_count + 1 }

/-- `Alarm.update_beep`: advance the audible escalation schedule (halving
the interval down to the floor on each firing) and step through the
three-beep pattern. -/
def Alarm.update_beep (a : AlarmS) (switch tone : Bool) (now : ℚ) : AlarmS × Bool :=
  let fired :=
    if now ≥ a.next_audible_alarm_time_ms then
      let a := { a with
        next_audible_alarm_time_ms := qadd a.next_audible_alarm_time_ms a.audible_alarm_interval_ms
        audible_alarm_interval_ms := rmax (qhalf a.audible_alarm_interval_ms) audible_alarm_interval_min_ms
        next_beep_update_time_ms := now }
      let (a, tone) := Alarm.beep_set a switch tone false
      ({ a with beep_num := 0 }, tone)
    else
      (a, tone)
  let a := fired.1
  let tone := fired.2
  if a.next_beep_update_time_ms ≠ 0 ∧ now ≥ a.next_beep_update_time_ms then
    if a.beep_state then
      let (a, tone) := Alarm.beep_set a switch tone false
      let a := { a with beep_num := a.beep_num + 1 }
      if a.beep_num ≥ n_beeps then
        ({ a with next_beep_update_time_ms := 0, beep_num := 0 }, tone)
      else
        ({ a with next_beep_update_time_ms := qadd a.next_beep_update_time_ms beep_off_time_ms }, tone)
    else
      let (a, tone) := Alarm.beep_set a switch tone true
      ({ a with next_beep_update_time_ms := qadd a.next_beep_update_time_ms beep_on_time_ms }, tone)
  else
    (a, tone)

/-- `Alarm.update_lights`: flash between red and off on the fixed visible
interval, via the global `timer.set_color`. -/
def Alarm.update_lights (a : AlarmS) (color : Option Color) (now : ℚ) : AlarmS × Option Color :=
  if now ≥ a.next_visible_alarm_time_ms then
    let a := { a with
      next_visible_alarm_time_ms := qadd a.next_visible_alarm_time_ms visible_alarm_interval_ms
      led_state := ¬a.led_state }
    if a.led_state then
      (a, set_color color .red)
    else
      (a, set_color color .off)
  else
    (a, color)

/-- `Alarm.__call__(self, alarm_state=True)`: trigger on a rising
activation, then either reset (when called with `False`) or run both
periodic sub-behaviors. -/
def Alarm.call (a : AlarmS) (switch tone : Bool) (color : Option Color) (now : ℚ)
    (arg : Bool) : AlarmS × Bool × Option Color :=
  let a := if arg ∧ ¬a.alarm_state then Alarm.trigger a now else a
  let a := { a with alarm_state := arg }
  if ¬a.alarm_state then
    let (a, tone) := Alarm.reset a switch tone
    (a, tone, color)
  else
    let (a, tone) := Alarm.update_beep a switch tone now
    let (a, color) := Alarm.update_lights a color now
    (a, tone, color)

/-- Alarm state as left by `Alarm.__init__` (which sets `beep_state` and
calls `reset`, whose trailing `beep_set(False)` is a no-op there). -/
def Alarm.init : AlarmS :=
  { alarm_state := false
    led_state := true
    next_visible_alarm_time_ms := 0
    next_audible_alarm_time_ms := 0
    audible_alarm_interval_ms := audible_alarm_interval_max_ms
    beep_state := false
    actually_beeping := false
    next_beep_update_time_ms := 0
    beep_num := 0
    trigger_count := 0 }

/-- `DogfoodTimerCommon.one_hour_ms = 3600000`. -/
def one_hour_ms : ℚ := 3600000

/-- `Timer.yellow_threshold_ms = one_hour_ms * 4`. -/
def yellow_threshold_ms : ℚ := 14400000

/-- `Timer.red_threshold_ms = one_hour_ms * 8`. -/
def red_threshold_ms : ℚ := 28800000

/-- `Timer.alarm_threshold_ms = one_hour_ms * 12`. -/
def alarm_threshold_ms : ℚ := 43200000

/-- State of the `Timer` object of `code.py`, together with the hardware
channels it owns: `color` is the last value written through `set_color`,
`tone` whether the tone generator is sounding, and `played` the sequence
of `cp.play_file` calls issued so far. -/
structure TimerS where
  lid : LidS
  alarm : AlarmS
  history : List ℚ
  last_raised_time : ℚ
  prev_a : Bool
  prev_b : Bool
  color : Option Color
  tone : Bool
  played : List Sound
deriving DecidableEq

/-- `Timer.undo(self, quiet=False)`: pop the most recent history entry
into `last_raised_time` and return the discarded baseline; a no-op
returning `None` when the history is empty.  Python's `list.pop(-1)`
removes the last element. -/
def Timer.undo (s : TimerS) (quiet : Bool) : TimerS × Option ℚ :=
  match s.history.getLast? with
  | none => (s, none)
  | some last =>
    let undone := s.last_raised_time
    let s := { s with
      last_raised_time := last
      history := s.history.dropLast
      played := if quiet then s.played else s.played ++ [Sound.undoWav] }
    (s, some undone)

/-- `Timer.record_time(self, raised_time=None)`: push the current baseline
onto the history, keep only the last 10 entries (`self.history[-10:]`),
and install the new baseline.  Python evaluates
`raised_time = raised_time or self.now()`, so a `raised_time` of `None`
or exactly `0` is replaced by `now`. -/
def Timer.record_time (s : TimerS) (now : ℚ) (raised_time : Option ℚ) : TimerS :=
  let rt := match raised_time with
    | none => now
    | some v => if v = 0 then now else v
  let h := s.history ++ [s.last_raised_time]
  { s with history := h.drop (h.length - 10), last_raised_time := rt }

/-- `Timer.snooze`: undo quietly when the lid is raised, re-push the
discarded baseline when not genuinely in alarm (Python truthiness: only
when the discarded baseline is non-`None` and nonzero), otherwise record
a baseline leaving one hour of grace and play the snooze sound. -/
def Timer.snooze (s : TimerS) (now : ℚ) : TimerS :=
  let u := if Lid.raised s.lid then Timer.undo s true else (s, none)
  let s := u.1
  let undone_time := u.2
  if qsub now s.last_raised_time < alarm_threshold_ms then
    match undone_time with
    | some v => if v = 0 then s else Timer.record_time s now (some v)
    | none => s
  else
    let s := Timer.record_time s now (some (qsub now (qsub alarm_threshold_ms one_hour_ms)))
    { s with played := s.played ++ [Sound.snoozeWav] }

/-- `Timer.update_lights`: blank the indicator while the lid is raised,
otherwise map `now - last_raised_time` to a color or drive the alarm. -/
def Timer.update_lights (s : TimerS) (switch : Bool) (now : ℚ) : TimerS :=
  if Lid.raised s.lid then
    { s with color := set_color s.color .off }
  else
    let delta := qsub now s.last_raised_time
    if delta > alarm_threshold_ms then
      let r := Alarm.call s.alarm switch s.tone s.color now true
      { s with alarm := r.1, tone := r.2.1, color := r.2.2 }
    else if delta > red_threshold_ms then
      { s with color := set_color s.color .red }
    else if delta > yellow_threshold_ms then
      { s with color := set_color s.color .yellow }
    else
      { s with color := set_color s.color .green }

/-- `Timer.handle_buttons`: difference the pressed set against the
previous tick's and fire undo on a new "a" press, snooze on a new "b"
press.  (Python iterates the set `new_presses` in unspecified order; the
claims under verification never press both buttons on the same tick.) -/
def Timer.handle_buttons (s : TimerS) (a_pressed b_pressed : Bool) (now : ℚ) : TimerS :=
  let new_a := a_pressed && !s.prev_a
  let new_b := b_pressed && !s.prev_b
  let s := { s with prev_a := a_pressed, prev_b := b_pressed }
  let s := if new_a then (Timer.undo s false).1 else s
  if new_b then Timer.snooze s now else s

/-- `Timer.__call__`: one iteration of the polling loop.  When the lid
query raises (indeterminate sample, see `Lid.update_state`), the
exception reaches the top-level `while True: try: timer() except: pass`
before any state is mutated, so the tick leaves the state unchanged. -/
def Timer.call (s : TimerS) (gx gy gz : ℚ) (a_pressed b_pressed switch : Bool)
    (now : ℚ) : TimerS :=
  match Lid.call s.lid gx gy gz now with
  | .error _ => s
  | .ok (r, lid') =>
    let s := { s with lid := lid' }
    let s :=
      if r then
        let ar := Alarm.call s.alarm switch s.tone s.color now false
        Timer.record_time { s with alarm := ar.1, tone := ar.2.1, color := ar.2.2 } now none
      else
        s
    let s := Timer.update_lights s switch now
    Timer.handle_buttons s a_pressed b_pressed now

/-- Timer state as left by `Timer.__init__` at time `t0` (the power-on
self test ends with `set_color("off")`). -/
def Timer.init (t0 : ℚ) : TimerS :=
  { lid := Lid.init
    alarm := Alarm.init
    history := []
    last_raised_time := t0
    prev_a := false
    prev_b := false
    color := some Color.off
    tone := false
    played := [] }

end Code

namespace Code

/-! Concrete executions of the polling loop used below.  The sample
`(0, 0, 5)` classifies as LOWERED, `(5, 0, 0)` as RAISED, and all ticks
run with the mute switch off. -/

/-- Run from power-on at time 0: debounce the lid to LOWERED (ticks at 0
and 100), let the alarm fire at 43200101 (elapsed just past the 12 h
threshold), then press button B (snooze) at 43200200. -/
def snoozeTrace : TimerS :=
  let s := Timer.init 0
  let s := Timer.call s 0 0 5 false false false 0
  let s := Timer.call s 0 0 5 false false false 100
  let s := Timer.call s 0 0 5 false false false 43200101
  Timer.call s 0 0 5 false true false 43200200

/-- Run from power-on at time 0: debounce the lid to LOWERED, let the
alarm fire at 43200101 (which starts a beep), then raise the lid (RAISED
samples at 43200200 and 43200300, the second of which promotes and
deactivates the alarm mid-beep). -/
def midBeepTrace : TimerS :=
  let s := Timer.init 0
  let s := Timer.call s 0 0 5 false false false 0
  let s := Timer.call s 0 0 5 false false false 100
  let s := Timer.call s 0 0 5 false false false 43200101
  let s := Timer.call s 5 0 0 false false false 43200200
  Timer.call s 5 0 0 false false false 43200300

/-- The state one tick before `midBeepTrace`, while the first beep of the
alarm pattern is sounding. -/
def midBeepPre : TimerS :=
  let s := Timer.init 0
  let s := Timer.call s 0 0 5 false false false 0
  let s := Timer.call s 0 0 5 false false false 100
  let s := Timer.call s 0 0 5 false false false 43200101
  Timer.call s 5 0 0 false false false 43200200

/-- Run from power-on at time 0 with the lid kept LOWERED: severity
checkpoints at elapsed 3 h 59 m and 4 h 0 m 1 s. -/
def severityTraceA : TimerS :=
  let s := Timer.init 0
  let s := Timer.call s 0 0 5 false false false 0
  let s := Timer.call s 0 0 5 false false false 100
  Timer.call s 0 0 5 false false false 14340000

/-- `severityTraceA` continued to elapsed 4 h 0 m 1 s. -/
def severityTraceB : TimerS :=
  Timer.call severityTraceA 0 0 5 false false false 14401000

/-- `severityTraceB` continued through three ticks past the 12 h alarm
threshold, the last at elapsed 12 h 0 m 1 s. -/
def severityTraceC : TimerS :=
  let s := Timer.call severityTraceB 0 0 5 false false false 43200100
  let s := Timer.call s 0 0 5 false false false 43200500
  Timer.call s 0 0 5 false false false 43201000

end Code

namespace Code

/-! Projection lemmas: which fields each operation leaves untouched. -/

@[simp] theorem beep_set_alarm_state (a : AlarmS) (sw t b : Bool) :
    (Alarm.beep_set a sw t b).1.alarm_state = a.alarm_state := by
  unfold Alarm.beep_set
  repeat' split
  all_goals rfl

@[simp] theorem beep_set_led_state (a : AlarmS) (sw t b : Bool) :
    (Alarm.beep_set a sw t b).1.led_state = a.led_state := by
  unfold Alarm.beep_set
  repeat' split
  all_goals rfl

@[simp] theorem beep_set_next_visible (a : AlarmS) (sw t b : Bool) :
    (Alarm.beep_set a sw t b).1.next_visible_alarm_time_ms = a.next_visible_alarm_time_ms := by
  unfold Alarm.beep_set
  repeat' split
  all_goals rfl

@[simp] theorem beep_set_next_audible (a : AlarmS) (sw t b : Bool) :
    (Alarm.beep_set a sw t b).1.next_audible_alarm_time_ms = a.next_audible_alarm_time_ms := by
  unfold Alarm.beep_set
  repeat' split
  all_goals rfl

@[simp] theorem beep_set_interval (a : AlarmS) (sw t b : Bool) :
    (Alarm.beep_set a sw t b).1.audible_alarm_interval_ms = a.audible_alarm_interval_ms := by
  unfold Alarm.beep_set
  repeat' split
  all_goals rfl

@[simp] theorem beep_set_next_beep_update (a : AlarmS) (sw t b : Bool) :
    (Alarm.beep_set a sw t b).1.next_beep_update_time_ms = a.next_beep_update_time_ms := by
  unfold Alarm.beep_set
  repeat' split
  all_goals rfl

@[simp] theorem beep_set_beep_num (a : AlarmS) (sw t b : Bool) :
    (Alarm.beep_set a sw t b).1.beep_num = a.beep_num := by
  unfold Alarm.beep_set
  repeat' split
  all_goals rfl

@[simp] theorem beep_set_trigger_count (a : AlarmS) (sw t b : Bool) :
    (Alarm.beep_set a sw t b).1.trigger_count = a.trigger_count := by
  unfold Alarm.beep_set
  repeat' split
  all_goals rfl

@[simp] theorem beep_set_beep_state (a : AlarmS) (sw t b : Bool) :
    (Alarm.beep_set a sw t b).1.beep_state = b := by
  unfold Alarm.beep_set
  repeat' split
  all_goals simp_all

theorem update_beep_alarm_state (a : AlarmS) (sw t : Bool) (now : ℚ) :
    (Alarm.update_beep a sw t now).1.alarm_state = a.alarm_state := by
  unfold Alarm.update_beep
  repeat' split
  all_goals simp [apply_ite]

theorem update_beep_trigger_count (a : AlarmS) (sw t : Bool) (now : ℚ) :
    (Alarm.update_beep a sw t now).1.trigger_count = a.trigger_count := by
  unfold Alarm.update_beep
  repeat' split
  all_goals simp [apply_ite]

theorem update_beep_interval_no_fire (a : AlarmS) (sw t : Bool) (now : ℚ)
    (h : ¬ now ≥ a.next_audible_alarm_time_ms) :
    (Alarm.update_beep a sw t now).1.audible_alarm_interval_ms = a.audible_alarm_interval_ms := by
  unfold Alarm.update_beep
  simp only [if_neg h]
  repeat' split
  all_goals simp [apply_ite]

theorem update_beep_interval_fire (a : AlarmS) (sw t : Bool) (now : ℚ)
    (h : now ≥ a.next_audible_alarm_time_ms) :
    (Alarm.update_beep a sw t now).1.audible_alarm_interval_ms
      = rmax (qhalf a.audible_alarm_interval_ms) audible_alarm_interval_min_ms := by
  unfold Alarm.update_beep
  simp only [if_pos h]
  repeat' split
  all_goals simp [apply_ite]

theorem alarm_update_lights_alarm_state (a : AlarmS) (c : Option Color) (now : ℚ) :
    (Alarm.update_lights a c now).1.alarm_state = a.alarm_state := by
  unfold Alarm.update_lights
  repeat' split
  all_goals simp [apply_ite]

theorem alarm_update_lights_interval (a : AlarmS) (c : Option Color) (now : ℚ) :
    (Alarm.update_lights a c now).1.audible_alarm_interval_ms = a.audible_alarm_interval_ms := by
  unfold Alarm.update_lights
  repeat' split
  all_goals simp [apply_ite]

/-- Calling the alarm with `alarm_state=False` always lands in the reset
path: the active flag is cleared and the escalation interval restored to
its maximum. -/
theorem alarm_call_false (a : AlarmS) (sw t : Bool) (c : Option Color) (now : ℚ) :
    (Alarm.call a sw t c now false).1.alarm_state = false ∧
    (Alarm.call a sw t c now false).1.audible_alarm_interval_ms
      = audible_alarm_interval_max_ms := by
  unfold Alarm.call Alarm.reset
  simp [beep_set_alarm_state, beep_set_interval]

/-- Calling the alarm with `alarm_state=True` always leaves the active
flag set. -/
theorem alarm_call_true (a : AlarmS) (sw t : Bool) (c : Option Color) (now : ℚ) :
    (Alarm.call a sw t c now true).1.alarm_state = true := by
  unfold Alarm.call
  simp [alarm_update_lights_alarm_state, update_beep_alarm_state]

theorem undo_alarm (s : TimerS) (q : Bool) :
    (Timer.undo s q).1.alarm = s.alarm := by
  unfold Timer.undo
  cases s.history.getLast? <;> rfl

theorem record_time_alarm (s : TimerS) (now : ℚ) (rt : Option ℚ) :
    (Timer.record_time s now rt).alarm = s.alarm := rfl

theorem snooze_alarm (s : TimerS) (now : ℚ) :
    (Timer.snooze s now).alarm = s.alarm := by
  unfold Timer.snooze
  split
  · cases h : (Timer.undo s true).2 with
    | none => simp [h, apply_ite, Timer.record_time, undo_alarm]
    | some v => simp [h, apply_ite, Timer.record_time, undo_alarm]
  · simp [apply_ite, Timer.record_time]

theorem record_time_lid (s : TimerS) (now : ℚ) (rt : Option ℚ) :
    (Timer.record_time s now rt).lid = s.lid := rfl

theorem undo_lid (s : TimerS) (q : Bool) :
    (Timer.undo s q).1.lid = s.lid := by
  unfold Timer.undo
  cases s.history.getLast? <;> rfl

theorem snooze_lid (s : TimerS) (now : ℚ) :
    (Timer.snooze s now).lid = s.lid := by
  unfold Timer.snooze
  split
  · cases h : (Timer.undo s true).2 with
    | none => simp [h, apply_ite, Timer.record_time, undo_lid]
    | some v => simp [h, apply_ite, Timer.record_time, undo_lid]
  · simp [apply_ite, Timer.record_time]

theorem handle_buttons_alarm (s : TimerS) (ap bp : Bool) (now : ℚ) :
    (Timer.handle_buttons s ap bp now).alarm = s.alarm := by
  simp only [Timer.handle_buttons]
  split
  · split
    · simp [snooze_alarm, undo_alarm]
    · simp [snooze_alarm]
  · split
    · simp [undo_alarm]
    · rfl

theorem handle_buttons_lid (s : TimerS) (ap bp : Bool) (now : ℚ) :
    (Timer.handle_buttons s ap bp now).lid = s.lid := by
  simp only [Timer.handle_buttons]
  split
  · split
    · simp [snooze_lid, undo_lid]
    · simp [snooze_lid]
  · split
    · simp [undo_lid]
    · rfl

theorem record_time_last_raised_none (s : TimerS) (now : ℚ) :
    (Timer.record_time s now none).last_raised_time = now := rfl

/-- On a tick where the lid is raised or elapsed time is not past the
alarm threshold, `Timer.update_lights` leaves the alarm object alone. -/
theorem timer_update_lights_alarm_of_le (s : TimerS) (sw : Bool) (now : ℚ)
    (h : Lid.raised s.lid = true ∨ ¬ qsub now s.last_raised_time > alarm_threshold_ms) :
    (Timer.update_lights s sw now).alarm = s.alarm := by
  unfold Timer.update_lights
  split
  · rfl
  · rename_i hr
    rcases h with h | h
    · exact absurd h hr
    · rw [if_neg h]
      split
      · rfl
      · split <;> rfl

/-- On a tick where the lid is not raised and elapsed time is past the
alarm threshold, `Timer.update_lights` drives the alarm with
`alarm_state=True`. -/
theorem timer_update_lights_alarm_of_gt (s : TimerS) (sw : Bool) (now : ℚ)
    (h1 : Lid.raised s.lid = false) (h2 : qsub now s.last_raised_time > alarm_threshold_ms) :
    (Timer.update_lights s sw now).alarm = (Alarm.call s.alarm sw s.tone s.color now true).1 := by
  unfold Timer.update_lights
  rw [if_neg (by simp [h1]), if_pos h2]

end Code

namespace Code

/-- C1, counterexample: a state reachable by the polling loop in which the
AlarmController is active although the lid's confirmed state is LOWERED
and the elapsed time since the baseline does not exceed the alarm
threshold.  The run debounces the lid to LOWERED, lets the alarm activate
at elapsed 43200101 ms, then snoozes at 43200200 ms: snooze moves the
baseline to 3600200 ms but never deactivates the alarm. -/
theorem c1_counterexample :
    snoozeTrace.alarm.alarm_state = true ∧
    snoozeTrace.lid.state = some LidState.LOWERED ∧
    snoozeTrace.last_raised_time = 3600200 ∧
    qsub 43200200 snoozeTrace.last_raised_time ≤ alarm_threshold_ms := by
  decide

/-- C1, amended: on every tick, the orchestrator activates the
AlarmController when the confirmed lid state is not RAISED and elapsed
time exceeds the alarm threshold, and deactivates it on a tick consuming
a RAISED edge; but on a tick with no RAISED edge on which the lid is
raised or elapsed time is at most the threshold it leaves the alarm's
active flag untouched — in particular, when an operation such as snooze
brings elapsed time back below the threshold while the lid is lowered,
the AlarmController stays active until the next RAISED edge. -/
theorem c1_alarm_drive (s : TimerS) (gx gy gz now : ℚ) (ap bp sw : Bool)
    (r : Bool) (l' : LidS) (s' : TimerS)
    (hlid : Lid.call s.lid gx gy gz now = .ok (r, l'))
    (hs' : s' = Timer.call s gx gy gz ap bp sw now) :
    (r = true → s'.alarm.alarm_state = false) ∧
    (r = false → Lid.raised l' = false → qsub now s.last_raised_time > alarm_threshold_ms →
      s'.alarm.alarm_state = true) ∧
    (r = false → (Lid.raised l' = true ∨ qsub now s.last_raised_time ≤ alarm_threshold_ms) →
      s'.alarm.alarm_state = s.alarm.alarm_state) := by
  subst hs'
  unfold Timer.call
  rw [hlid]
  refine ⟨?_, ?_, ?_⟩
  · rintro rfl
    simp only [handle_buttons_alarm]
    rw [if_pos (by decide), timer_update_lights_alarm_of_le]
    · simp [record_time_alarm, (alarm_call_false s.alarm sw s.tone s.color now).1]
    · right
      rw [record_time_last_raised_none, qsub_eq, sub_self]
      simp [alarm_threshold_ms]
  · rintro rfl hlow hgt
    simp only [handle_buttons_alarm]
    rw [if_neg (by decide), timer_update_lights_alarm_of_gt]
    · exact alarm_call_true _ _ _ _ _
    · exact hlow
    · exact hgt
  · rintro rfl h
    simp only [handle_buttons_alarm]
    rw [if_neg (by decide), timer_update_lights_alarm_of_le]
    rcases h with h | h
    · exact Or.inl h
    · exact Or.inr (not_lt.mpr h)

/-- Witness for `c1_alarm_drive` at a concrete input (first tick from
power-on, LOWERED sample, elapsed 0). -/
theorem c1_alarm_drive_witness :
    (Timer.call (Timer.init 0) 0 0 5 false false false 0).alarm.alarm_state
      = (Timer.init 0).alarm.alarm_state := by
  have h := c1_alarm_drive (Timer.init 0) 0 0 5 0 false false false false
    { state := none, pending := some (LidState.LOWERED, 0), newState := none }
    (Timer.call (Timer.init 0) 0 0 5 false false false 0) (by rfl) rfl
  exact h.2.2 rfl (Or.inr (by decide))

end Code

/-! Case analysis of the shared debounce step. -/

theorem core_eq_confirmed (l : LidS) (cur : LidState) (now : ℚ)
    (h : l.state = some cur) :
    updateStateCore l cur now = { l with pending := none } := by
  unfold updateStateCore
  rw [if_pos h]

theorem core_promote (l : LidS) (cur : LidState) (now pt : ℚ)
    (h1 : l.state ≠ some cur) (h2 : l.pending = some (cur, pt))
    (h3 : qsub now pt ≥ debounce_threshold_ms) :
    updateStateCore l cur now
      = { state := some cur, pending := none, newState := some cur } := by
  unfold updateStateCore
  rw [if_neg h1, h2]
  simp [h3]

theorem core_hold (l : LidS) (cur : LidState) (now pt : ℚ)
    (h1 : l.state ≠ some cur) (h2 : l.pending = some (cur, pt))
    (h3 : ¬ qsub now pt ≥ debounce_threshold_ms) :
    updateStateCore l cur now = l := by
  unfold updateStateCore
  rw [if_neg h1, h2]
  simp [h3]

theorem core_replace (l : LidS) (cur : LidState) (now : ℚ)
    (h1 : l.state ≠ some cur) (h2 : ∀ pt, l.pending ≠ some (cur, pt)) :
    updateStateCore l cur now = { l with pending := some (cur, now) } := by
  unfold updateStateCore
  rw [if_neg h1]
  cases hp : l.pending with
  | none => rfl
  | some c =>
    obtain ⟨p, pt⟩ := c
    have hpc : p ≠ cur := by
      intro he
      exact h2 pt (he ▸ hp)
    simp [hpc]

/-- The confirmed state changes only through a promotion. -/
theorem core_state_change (l : LidS) (cur : LidState) (now : ℚ)
    (h : (updateStateCore l cur now).state ≠ l.state) :
    l.state ≠ some cur ∧ ∃ pt, l.pending = some (cur, pt) ∧
      qsub now pt ≥ debounce_threshold_ms ∧
      (updateStateCore l cur now).newState = some cur ∧
      (updateStateCore l cur now).state = some cur := by
  by_cases h1 : l.state = some cur
  · rw [core_eq_confirmed l cur now h1] at h
    exact absurd rfl h
  · refine ⟨h1, ?_⟩
    cases hp : l.pending with
    | none =>
      rw [core_replace l cur now h1 (by simp [hp])] at h
      exact absurd rfl h
    | some c =>
      obtain ⟨p, pt⟩ := c
      by_cases hpc : p = cur
      · subst hpc
        by_cases h3 : qsub now pt ≥ debounce_threshold_ms
        · rw [core_promote l p now pt h1 hp h3]
          exact ⟨pt, rfl, h3, rfl, rfl⟩
        · rw [core_hold l p now pt h1 hp h3] at h
          exact absurd rfl h
      · rw [core_replace l cur now h1 (by simp [hp, hpc])] at h
        exact absurd rfl h

/-- When no promotion happens, the one-shot edge is untouched. -/
theorem core_newState_of_state_eq (l : LidS) (cur : LidState) (now : ℚ)
    (h : (updateStateCore l cur now).state = l.state) :
    (updateStateCore l cur now).newState = l.newState := by
  by_cases h1 : l.state = some cur
  · rw [core_eq_confirmed l cur now h1]
  · cases hp : l.pending with
    | none => rw [core_replace l cur now h1 (by simp [hp])]
    | some c =>
      obtain ⟨p, pt⟩ := c
      by_cases hpc : p = cur
      · subst hpc
        by_cases h3 : qsub now pt ≥ debounce_threshold_ms
        · rw [core_promote l p now pt h1 hp h3] at h
          exact absurd h.symm h1
        · rw [core_hold l p now pt h1 hp h3]
      · rw [core_replace l cur now h1 (by simp [hp, hpc])]

/-- C3: for determinate samples the confirmed lid state follows exactly
the debounce discipline, in both `code.py` and `freezer_timer.py`: a
sample equal to the confirmed state clears the pending candidate; a
sample equal to the pending candidate held for at least the 100 ms window
promotes it and records the one-shot edge; a candidate held less than the
window changes nothing; a sample differing from both confirmed state and
candidate replaces the candidate with a fresh first-seen time; and the
confirmed state changes only through a promotion. -/
theorem c3_debounce :
    debounce_threshold_ms = 100 ∧
    (∀ (l : LidS) (cur : LidState) (now : ℚ), l.state = some cur →
       updateStateCore l cur now = { l with pending := none }) ∧
    (∀ (l : LidS) (cur : LidState) (now pt : ℚ), l.state ≠ some cur →
       l.pending = some (cur, pt) → qsub now pt ≥ debounce_threshold_ms →
       updateStateCore l cur now
         = { state := some cur, pending := none, newState := some cur }) ∧
    (∀ (l : LidS) (cur : LidState) (now pt : ℚ), l.state ≠ some cur →
       l.pending = some (cur, pt) → ¬ qsub now pt ≥ debounce_threshold_ms →
       updateStateCore l cur now = l) ∧
    (∀ (l : LidS) (cur : LidState) (now : ℚ), l.state ≠ some cur →
       (∀ pt, l.pending ≠ some (cur, pt)) →
       updateStateCore l cur now = { l with pending := some (cur, now) }) ∧
    (∀ (l : LidS) (cur : LidState) (now : ℚ),
       (updateStateCore l cur now).state ≠ l.state →
       l.state ≠ some cur ∧ ∃ pt, l.pending = some (cur, pt) ∧
         qsub now pt ≥ debounce_threshold_ms ∧
         (updateStateCore l cur now).newState = some cur ∧
         (updateStateCore l cur now).state = some cur) ∧
    (∀ (l : LidS) (gx gy gz now : ℚ) (cur : LidState), classify gx gy gz = some cur →
       Code.Lid.update_state l gx gy gz now = .ok (updateStateCore l cur now) ∧
       Freezer.Lid.update_state l gx gy gz now = updateStateCore l cur now) :=
  ⟨rfl, core_eq_confirmed, core_promote, core_hold, core_replace, core_state_change,
   fun l gx gy gz now cur hc => by
     constructor
     · unfold Code.Lid.update_state
       rw [hc]
     · unfold Freezer.Lid.update_state
       rw [hc]⟩

/-- Witness for `c3_debounce`: a LOWERED candidate first seen at time 0
is promoted by a LOWERED sample at time 100. -/
theorem c3_debounce_witness :
    updateStateCore
        { state := none, pending := some (LidState.LOWERED, 0), newState := none }
        LidState.LOWERED 100
      = { state := some LidState.LOWERED, pending := none,
          newState := some LidState.LOWERED } :=
  c3_debounce.2.2.1
    { state := none, pending := some (LidState.LOWERED, 0), newState := none }
    LidState.LOWERED 100 0 (by decide) rfl (by decide)

/-- C7: on an orientation sample that classifies as neither RAISED nor
LOWERED, `freezer_timer.py`'s `update_state` is a no-op leaving every
field of the lid monitor unchanged, but `code.py`'s `update_state`
raises `NameError` (it reads the undefined local `start`), so in
`code.py` the sample does not complete without fault.  The lid state is
nevertheless unchanged there, because the exception is raised before any
assignment. -/
theorem c7_indeterminate (l : LidS) (gx gy gz now : ℚ)
    (h : classify gx gy gz = none) :
    Code.Lid.update_state l gx gy gz now = .error () ∧
    Freezer.Lid.update_state l gx gy gz now = l := by
  constructor
  · unfold Code.Lid.update_state
    rw [h]
  · unfold Freezer.Lid.update_state
    rw [h]

/-- Witness for `c7_indeterminate` at the failing input `(0, 0, 0)`
(at rest, neither orientation test passes). -/
theorem c7_indeterminate_witness :
    classify 0 0 0 = none ∧
    Code.Lid.update_state Code.Lid.init 0 0 0 0 = .error () ∧
    Freezer.Lid.update_state Code.Lid.init 0 0 0 0 = Code.Lid.init :=
  ⟨by decide, (c7_indeterminate Code.Lid.init 0 0 0 0 (by decide)).1,
   (c7_indeterminate Code.Lid.init 0 0 0 0 (by decide)).2⟩

/-- Successful runs of `code.py`'s `Lid.__call__` decompose into the
shared debounce step followed by edge consumption. -/
theorem lid_call_ok_inv (l : LidS) (gx gy gz now : ℚ) (r : Bool) (l' : LidS)
    (h : Code.Lid.call l gx gy gz now = .ok (r, l')) :
    ∃ cur, classify gx gy gz = some cur ∧
      r = decide ((updateStateCore l cur now).newState = some LidState.RAISED) ∧
      l' = { updateStateCore l cur now with newState := none } := by
  unfold Code.Lid.call Code.Lid.update_state at h
  cases hc : classify gx gy gz with
  | none =>
    rw [hc] at h
    exact absurd h (by simp)
  | some cur =>
    rw [hc] at h
    simp only [Except.ok.injEq, Prod.mk.injEq] at h
    exact ⟨cur, rfl, h.1.symm, h.2.symm⟩

/-- C8: the edge-consuming query is one-shot, in both source files.  Every
call clears the stored edge; a call that starts with no stored edge and
does not change the confirmed state returns false; and a call that
returns true performed a promotion of the confirmed state during that
very call. -/
theorem c8_edge_once :
    (∀ (l : LidS) (gx gy gz now : ℚ) (r : Bool) (l' : LidS),
       Code.Lid.call l gx gy gz now = .ok (r, l') → l'.newState = none) ∧
    (∀ (l : LidS) (gx gy gz now : ℚ) (r : Bool) (l' : LidS),
       Code.Lid.call l gx gy gz now = .ok (r, l') → l.newState = none →
       l'.state = l.state → r = false) ∧
    (∀ (l : LidS) (gx gy gz now : ℚ) (r : Bool) (l' : LidS),
       Code.Lid.call l gx gy gz now = .ok (r, l') → l.newState = none →
       r = true → l'.state ≠ l.state) ∧
    (∀ (l : LidS) (gx gy gz now : ℚ) (trig : LidState),
       (Freezer.Lid.call l gx gy gz now trig).2.newState = none) ∧
    (∀ (l : LidS) (gx gy gz now : ℚ) (trig : LidState), l.newState = none →
       (Freezer.Lid.call l gx gy gz now trig).2.state = l.state →
       (Freezer.Lid.call l gx gy gz now trig).1 = false) := by
  refine ⟨?_, ?_, ?_, ?_, ?_⟩
  · intro l gx gy gz now r l' h
    obtain ⟨cur, hc, hr, hl'⟩ := lid_call_ok_inv l gx gy gz now r l' h
    rw [hl']
  · intro l gx gy gz now r l' h hn hs
    obtain ⟨cur, hc, hr, hl'⟩ := lid_call_ok_inv l gx gy gz now r l' h
    have hstate : (updateStateCore l cur now).state = l.state := by
      rw [hl'] at hs
      exact hs
    have := core_newState_of_state_eq l cur now hstate
    rw [hr, this, hn]
    simp
  · intro l gx gy gz now r l' h hn hr1 hs
    obtain ⟨cur, hc, hr, hl'⟩ := lid_call_ok_inv l gx gy gz now r l' h
    have hstate : (updateStateCore l cur now).state = l.state := by
      rw [hl'] at hs
      exact hs
    have := core_newState_of_state_eq l cur now hstate
    rw [hr1, this, hn] at hr
    simp at hr
  · intro l gx gy gz now trig
    rfl
  · intro l gx gy gz now trig hn hs
    have hs2 : (Freezer.Lid.update_state l gx gy gz now).state = l.state := hs
    show decide ((Freezer.Lid.update_state l gx gy gz now).newState = some trig) = false
    unfold Freezer.Lid.update_state at hs2 ⊢
    cases hc : classify gx gy gz with
    | none =>
      rw [hn]
      simp
    | some cur =>
      rw [hc] at hs2
      rw [core_newState_of_state_eq l cur now hs2, hn]
      simp

/-- Witness for `c8_edge_once`: a call right after a promotion into
RAISED (stored edge already consumed, RAISED sample matching the
confirmed state) keeps the edge clear and returns false. -/
theorem c8_edge_once_witness :
    ({ state := some LidState.RAISED, pending := none, newState := none } : LidS).newState
        = none ∧
    (false : Bool) = false :=
  ⟨c8_edge_once.1 { state := some LidState.RAISED, pending := none, newState := none }
      5 0 0 200 false
      { state := some LidState.RAISED, pending := none, newState := none } (by rfl),
   c8_edge_once.2.1 { state := some LidState.RAISED, pending := none, newState := none }
      5 0 0 200 false
      { state := some LidState.RAISED, pending := none, newState := none } (by rfl)
      rfl rfl⟩

/-- C10: in `code.py` the lid edge query reports only promotions into
RAISED.  Whenever `Lid.__call__` returns true (starting from a consumed
edge), the confirmed state is RAISED immediately afterwards; and a
promotion into LOWERED records the one-shot edge inside `update_state`
but the very same call clears it and returns false. -/
theorem c10_raised_edge_only :
    (∀ (l : LidS) (gx gy gz now : ℚ) (r : Bool) (l' : LidS),
       Code.Lid.call l gx gy gz now = .ok (r, l') → l.newState = none →
       r = true → l'.state = some LidState.RAISED) ∧
    (∀ (l : LidS) (gx gy gz now pt : ℚ),
       classify gx gy gz = some LidState.LOWERED →
       l.state ≠ some LidState.LOWERED →
       l.pending = some (LidState.LOWERED, pt) →
       qsub now pt ≥ debounce_threshold_ms →
       (updateStateCore l LidState.LOWERED now).newState = some LidState.LOWERED ∧
       Code.Lid.call l gx gy gz now
         = .ok (false, { state := some LidState.LOWERED, pending := none,
                         newState := none })) := by
  constructor
  · intro l gx gy gz now r l' h hn hr1
    obtain ⟨cur, hc, hr, hl'⟩ := lid_call_ok_inv l gx gy gz now r l' h
    rw [hr1] at hr
    have hns : (updateStateCore l cur now).newState = some LidState.RAISED := by
      have := hr.symm
      simpa using this
    by_cases hstate : (updateStateCore l cur now).state = l.state
    · rw [core_newState_of_state_eq l cur now hstate, hn] at hns
      exact absurd hns (by simp)
    · obtain ⟨-, pt, -, -, hns2, hst2⟩ := core_state_change l cur now hstate
      rw [hns] at hns2
      have hcur : cur = LidState.RAISED := by
        simpa using hns2.symm
      rw [hl']
      show (updateStateCore l cur now).state = some LidState.RAISED
      rw [hst2, hcur]
  · intro l gx gy gz now pt hc h1 h2 h3
    have hp := core_promote l LidState.LOWERED now pt h1 h2 h3
    refine ⟨by rw [hp], ?_⟩
    unfold Code.Lid.call Code.Lid.update_state
    rw [hc]
    simp [hp]

/-- Witness for `c10_raised_edge_only`: the tick that promotes a RAISED
candidate held for 100 ms confirms the RAISED state. -/
theorem c10_raised_edge_only_witness :
    ({ state := some LidState.RAISED, pending := none, newState := none } : LidS).state
      = some LidState.RAISED :=
  c10_raised_edge_only.1
    { state := none, pending := some (LidState.RAISED, 0), newState := none }
    5 0 0 100 true
    { state := some LidState.RAISED, pending := none, newState := none }
    (by rfl) rfl rfl



namespace Code

/-- Replacing `alarm_state` by `true` in an alarm state that already has
it true is the identity. -/
theorem set_alarm_state_id (a : AlarmS) (h : a.alarm_state = true) :
    ({ a with alarm_state := true } : AlarmS) = a := by
  cases a
  simp_all

/-- C6: the audible escalation interval starts at its maximum (1 hour),
is replaced by `max(interval/2, floor)` on every firing, never drops
below the 1-minute floor and never increases while the alarm stays
active — re-invoking the alarm with `alarm_state=True` while already
active cannot reset it — whereas a call with `alarm_state=False` restores
the maximum and `trigger` leaves the interval untouched, so only a full
deactivate-then-trigger cycle starts again from the maximum. -/
theorem c6_interval :
    Alarm.init.audible_alarm_interval_ms = audible_alarm_interval_max_ms ∧
    (∀ (a : AlarmS) (sw t : Bool) (now : ℚ), now ≥ a.next_audible_alarm_time_ms →
       (Alarm.update_beep a sw t now).1.audible_alarm_interval_ms
         = rmax (qhalf a.audible_alarm_interval_ms) audible_alarm_interval_min_ms) ∧
    (∀ (a : AlarmS) (sw t : Bool) (now : ℚ),
       audible_alarm_interval_min_ms ≤ a.audible_alarm_interval_ms →
       audible_alarm_interval_min_ms
           ≤ (Alarm.update_beep a sw t now).1.audible_alarm_interval_ms ∧
       (Alarm.update_beep a sw t now).1.audible_alarm_interval_ms
           ≤ a.audible_alarm_interval_ms) ∧
    (∀ (a : AlarmS) (sw t : Bool) (c : Option Color) (now : ℚ), a.alarm_state = true →
       audible_alarm_interval_min_ms ≤ a.audible_alarm_interval_ms →
       audible_alarm_interval_min_ms
           ≤ (Alarm.call a sw t c now true).1.audible_alarm_interval_ms ∧
       (Alarm.call a sw t c now true).1.audible_alarm_interval_ms
           ≤ a.audible_alarm_interval_ms) ∧
    (∀ (a : AlarmS) (sw t : Bool) (c : Option Color) (now : ℚ),
       (Alarm.call a sw t c now false).1.audible_alarm_interval_ms
         = audible_alarm_interval_max_ms) ∧
    (∀ (a : AlarmS) (now : ℚ),
       (Alarm.trigger a now).audible_alarm_interval_ms = a.audible_alarm_interval_ms) := by
  have hmono : ∀ (a : AlarmS) (sw t : Bool) (now : ℚ),
      audible_alarm_interval_min_ms ≤ a.audible_alarm_interval_ms →
      audible_alarm_interval_min_ms
          ≤ (Alarm.update_beep a sw t now).1.audible_alarm_interval_ms ∧
      (Alarm.update_beep a sw t now).1.audible_alarm_interval_ms
          ≤ a.audible_alarm_interval_ms := by
    intro a sw t now h
    by_cases hf : now ≥ a.next_audible_alarm_time_ms
    · rw [update_beep_interval_fire a sw t now hf, rmax_eq_max, qhalf_eq]
      have hmin : (0 : ℚ) < audible_alarm_interval_min_ms := by
        rw [audible_alarm_interval_min_ms]
        norm_num
      constructor
      · exact le_max_right _ _
      · apply max_le
        · linarith
        · exact h
    · rw [update_beep_interval_no_fire a sw t now hf]
      exact ⟨h, le_refl _⟩
  refine ⟨rfl, update_beep_interval_fire, hmono, ?_, ?_, fun a now => rfl⟩
  · intro a sw t c now ha h
    unfold Alarm.call
    rw [ha]
    simp only [eq_self_iff_true, not_true, and_false, if_false, ite_true, ite_false]
    rw [alarm_update_lights_interval, set_alarm_state_id a ha]
    exact hmono a sw t now h
  · intro a sw t c now
    exact (alarm_call_false a sw t c now).2

end Code

/-- Witness for `Code.c6_interval`: the very first firing after power-on
halves the interval from one hour to thirty minutes. -/
theorem c6_interval_witness :
    (Code.Alarm.update_beep Code.Alarm.init false false 0).1.audible_alarm_interval_ms
        = rmax (qhalf Code.audible_alarm_interval_max_ms) Code.audible_alarm_interval_min_ms ∧
    rmax (qhalf Code.audible_alarm_interval_max_ms) Code.audible_alarm_interval_min_ms
        = 1800000 :=
  ⟨Code.c6_interval.2.1 Code.Alarm.init false false 0 (by decide), by decide⟩


namespace Code

/-- C2: with the lid's confirmed state not RAISED, the tick maps
`elapsed = now - baseline` to severity with exactly these boundaries:
green (ok) when elapsed ≤ warn threshold (4 h), yellow (warn) on
(4 h, 8 h], red (critical) on (8 h, 12 h], and the AlarmController is
driven exactly when elapsed > 12 h (otherwise the alarm object is left
untouched).  In the concrete scenario, severity is ok at elapsed
3 h 59 m, warn at 4 h 0 m 1 s, and after ticks at elapsed 43200100,
43200500 and 43201000 ms (12 h 0 m 1 s), `trigger()` has fired exactly
once, not once per tick. -/
theorem c2_severity :
    (∀ (s : TimerS) (sw : Bool) (now : ℚ), Lid.raised s.lid = false →
       (qsub now s.last_raised_time ≤ yellow_threshold_ms →
          (Timer.update_lights s sw now).color = set_color s.color Color.green ∧
          (Timer.update_lights s sw now).alarm = s.alarm) ∧
       (yellow_threshold_ms < qsub now s.last_raised_time →
          qsub now s.last_raised_time ≤ red_threshold_ms →
          (Timer.update_lights s sw now).color = set_color s.color Color.yellow ∧
          (Timer.update_lights s sw now).alarm = s.alarm) ∧
       (red_threshold_ms < qsub now s.last_raised_time →
          qsub now s.last_raised_time ≤ alarm_threshold_ms →
          (Timer.update_lights s sw now).color = set_color s.color Color.red ∧
          (Timer.update_lights s sw now).alarm = s.alarm) ∧
       (alarm_threshold_ms < qsub now s.last_raised_time →
          (Timer.update_lights s sw now).alarm
            = (Alarm.call s.alarm sw s.tone s.color now true).1)) ∧
    yellow_threshold_ms = 14400000 ∧
    red_threshold_ms = 28800000 ∧
    alarm_threshold_ms = 43200000 ∧
    severityTraceA.last_raised_time = 0 ∧
    severityTraceA.color = some Color.green ∧
    severityTraceB.color = some Color.yellow ∧
    severityTraceC.alarm.trigger_count = 1 ∧
    severityTraceC.alarm.alarm_state = true := by
  refine ⟨?_, rfl, rfl, rfl, by decide, by decide, by decide, by decide, by decide⟩
  intro s sw now hr
  have hraise : ¬ Lid.raised s.lid = true := by
    rw [hr]
    simp
  refine ⟨?_, ?_, ?_, ?_⟩
  · intro h1
    have ha : ¬ qsub now s.last_raised_time > alarm_threshold_ms := by
      rw [yellow_threshold_ms] at h1
      rw [alarm_threshold_ms]
      linarith
    have hb : ¬ qsub now s.last_raised_time > red_threshold_ms := by
      rw [yellow_threshold_ms] at h1
      rw [red_threshold_ms]
      linarith
    have hc : ¬ qsub now s.last_raised_time > yellow_threshold_ms := not_lt.mpr h1
    unfold Timer.update_lights
    rw [if_neg hraise, if_neg ha, if_neg hb, if_neg hc]
    exact ⟨rfl, rfl⟩
  · intro h1 h2
    have ha : ¬ qsub now s.last_raised_time > alarm_threshold_ms := by
      rw [red_threshold_ms] at h2
      rw [alarm_threshold_ms]
      linarith
    have hb : ¬ qsub now s.last_raised_time > red_threshold_ms := not_lt.mpr h2
    unfold Timer.update_lights
    rw [if_neg hraise, if_neg ha, if_neg hb, if_pos h1]
    exact ⟨rfl, rfl⟩
  · intro h1 h2
    have ha : ¬ qsub now s.last_raised_time > alarm_threshold_ms := not_lt.mpr h2
    unfold Timer.update_lights
    rw [if_neg hraise, if_neg ha, if_pos h1]
    exact ⟨rfl, rfl⟩
  · intro h1
    unfold Timer.update_lights
    rw [if_neg hraise, if_pos h1]

end Code

/-- Witness for `Code.c2_severity` on the first tick from power-on with
the lid still unknown: elapsed 0 is within the warn threshold, so the
indicator goes green and the alarm object is untouched. -/
theorem c2_severity_witness :
    (Code.Timer.update_lights (Code.Timer.init 0) false 0).color
      = Code.set_color (Code.Timer.init 0).color Color.green ∧
    (Code.Timer.update_lights (Code.Timer.init 0) false 0).alarm
      = (Code.Timer.init 0).alarm :=
  (Code.c2_severity.1 (Code.Timer.init 0) false 0 (by decide)).1 (by decide)


namespace Code

/-- C4: deactivating the alarm never silences the tone channel.
`Alarm.reset` clears `beep_state` and `actually_beeping` before its
trailing `beep_set(False)`, so the guard `state != self.beep_state` is
already false and `cp.stop_tone()` is never called: a call with
`alarm_state=False` returns the tone channel exactly as it found it.  In
the concrete reachable run `midBeepPre` the alarm is mid-beep (tone
sounding, `beep_state` and `actually_beeping` set); the next tick
promotes a RAISED edge and calls the alarm with `alarm_state=False`,
after which the escalation interval is back at its maximum and all beep
bookkeeping is cleared — but the tone is still sounding. -/
theorem c4_deactivate_tone :
    (∀ (a : AlarmS) (sw t : Bool) (c : Option Color) (now : ℚ),
       (Alarm.call a sw t c now false).2.1 = t) ∧
    midBeepPre.tone = true ∧
    midBeepPre.alarm.beep_state = true ∧
    midBeepPre.alarm.actually_beeping = true ∧
    midBeepPre.alarm.alarm_state = true ∧
    midBeepTrace = Timer.call midBeepPre 5 0 0 false false false 43200300 ∧
    midBeepTrace.alarm.alarm_state = false ∧
    midBeepTrace.alarm.beep_state = false ∧
    midBeepTrace.alarm.actually_beeping = false ∧
    midBeepTrace.alarm.audible_alarm_interval_ms = audible_alarm_interval_max_ms ∧
    midBeepTrace.tone = true := by
  refine ⟨?_, by decide, by decide, by decide, by decide, rfl, by decide, by decide,
    by decide, by decide, by decide⟩
  intro a sw t c now
  unfold Alarm.call Alarm.reset Alarm.beep_set
  simp

end Code


namespace Code

/-- Nonnegative first-seen timestamp of a pending debounce candidate. -/
def pending_ok (o : Option (LidState × ℚ)) : Prop :=
  ∀ c pt, o = some (c, pt) → 0 ≤ pt

instance pending_ok_dec : ∀ o, Decidable (pending_ok o)
  | none => isTrue (by
      intro c pt h
      exact absurd h (by simp))
  | some c0 => decidable_of_iff (0 ≤ c0.2) (by
      constructor
      · intro h c pt he
        injection he with he2
        rw [he2] at h
        exact h
      · intro h
        exact h c0.1 c0.2 (by rfl))

/-- Invariant of the `code.py` polling loop relating the undo history,
the baseline and the lid monitor, provided every tick's timestamp is
nonnegative: the baseline and all history entries are nonnegative
timestamps, every entry above the oldest is strictly positive, the
baseline is strictly positive whenever the history is nonempty (so
Python's zero-falsiness in `undo`/`record_time` never bites), the
history holds at most 10 entries, any pending debounce candidate has a
nonnegative first-seen time, and the one-shot lid edge is consumed. -/
def Jinv (s : TimerS) : Prop :=
  0 ≤ s.last_raised_time ∧
  (∀ x ∈ s.history, 0 ≤ x) ∧
  (∀ x ∈ s.history.tail, 0 < x) ∧
  (s.history ≠ [] → 0 < s.last_raised_time) ∧
  s.history.length ≤ 10 ∧
  pending_ok s.lid.pending ∧
  s.lid.newState = none

instance Jinv_dec (s : TimerS) : Decidable (Jinv s) := by
  unfold Jinv
  infer_instance

/-- The initial state satisfies the invariant. -/
theorem init_J (t0 : ℚ) (h : 0 ≤ t0) : Jinv (Timer.init t0) := by
  refine ⟨h, by simp [Timer.init], by simp [Timer.init], by simp [Timer.init],
    by simp [Timer.init], ?_, rfl⟩
  intro c pt he
  exact absurd he (by simp [Timer.init, Lid.init])

theorem timer_update_lights_keeps (s : TimerS) (sw : Bool) (now : ℚ) :
    (Timer.update_lights s sw now).history = s.history ∧
    (Timer.update_lights s sw now).last_raised_time = s.last_raised_time ∧
    (Timer.update_lights s sw now).lid = s.lid := by
  simp only [Timer.update_lights]
  repeat' split
  all_goals exact ⟨rfl, rfl, rfl⟩

/-- `Timer.update_lights` preserves the loop invariant. -/
theorem update_lights_J (s : TimerS) (sw : Bool) (now : ℚ) (hJ : Jinv s) :
    Jinv (Timer.update_lights s sw now) := by
  obtain ⟨k1, k2, k3⟩ := timer_update_lights_keeps s sw now
  unfold Jinv at hJ ⊢
  rw [k1, k2, k3]
  exact hJ

end Code


/-- Dropping the last element commutes with taking the tail. -/
theorem tail_dropLast (l : List ℚ) : l.dropLast.tail = l.tail.dropLast := by
  cases l with
  | nil => rfl
  | cons a t =>
    cases t with
    | nil => rfl
    | cons b u => simp

namespace Code

/-- `Timer.undo` preserves the loop invariant. -/
theorem undo_J (s : TimerS) (q : Bool) (hJ : Jinv s) :
    Jinv (Timer.undo s q).1 := by
  obtain ⟨j1, j2, j3, j4, j5, j6, j7⟩ := hJ
  unfold Timer.undo
  cases hg : s.history.getLast? with
  | none => exact ⟨j1, j2, j3, j4, j5, j6, j7⟩
  | some last =>
    dsimp only
    have hne : s.history ≠ [] := by
      intro he
      rw [he] at hg
      exact absurd hg (by simp)
    have hmem : last ∈ s.history := by
      obtain ⟨h0, he⟩ := List.mem_getLast?_eq_getLast (Option.mem_def.mpr hg)
      rw [he]
      exact List.getLast_mem h0
    refine ⟨j2 last hmem, ?_, ?_, ?_, ?_, j6, j7⟩
    · intro x hx
      exact j2 x (List.dropLast_subset _ hx)
    · intro x hx
      rw [tail_dropLast] at hx
      exact j3 x (List.dropLast_subset _ hx)
    · intro hne2
      show 0 < last
      apply j3
      cases hh : s.history with
      | nil => exact absurd hh hne
      | cons a tl =>
        cases htl : tl with
        | nil =>
          rw [hh, htl] at hne2
          exact absurd rfl hne2
        | cons b u =>
          rw [hh, htl] at hg
          rw [List.getLast?_cons_cons] at hg
          show last ∈ b :: u
          obtain ⟨h0, he⟩ := List.mem_getLast?_eq_getLast (Option.mem_def.mpr hg)
          rw [he]
          exact List.getLast_mem h0
    · show s.history.dropLast.length ≤ 10
      have := List.length_dropLast s.history
      omega

/-- `Timer.record_time` preserves the loop invariant whenever the
effective new baseline is strictly positive. -/
theorem record_time_J (s : TimerS) (now : ℚ) (v : Option ℚ) (hJ : Jinv s)
    (hrt : 0 < (Timer.record_time s now v).last_raised_time) :
    Jinv (Timer.record_time s now v) := by
  obtain ⟨j1, j2, j3, j4, j5, j6, j7⟩ := hJ
  unfold Timer.record_time at hrt ⊢
  dsimp only at hrt ⊢
  refine ⟨le_of_lt hrt, ?_, ?_, fun _ => hrt, ?_, j6, j7⟩
  · intro x hx
    have hx2 : x ∈ s.history ++ [s.last_raised_time] := List.drop_subset _ _ hx
    rcases List.mem_append.mp hx2 with h | h
    · exact j2 x h
    · rw [List.mem_singleton.mp h]
      exact j1
  · intro x hx
    rw [List.tail_drop] at hx
    have hx2 : x ∈ (s.history ++ [s.last_raised_time]).tail := by
      have h1 : (s.history ++ [s.last_raised_time]).drop
          ((s.history ++ [s.last_raised_time]).length - 10 + 1)
          = ((s.history ++ [s.last_raised_time]).drop 1).drop
              ((s.history ++ [s.last_raised_time]).length - 10) := by
        rw [List.drop_drop, Nat.add_comm]
      rw [h1] at hx
      rw [← List.drop_one]
      exact List.drop_subset _ _ hx
    cases hh : s.history with
    | nil =>
      rw [hh] at hx2
      exact absurd hx2 (by simp)
    | cons a tl =>
      rw [hh] at hx2
      simp only [List.cons_append, List.tail_cons] at hx2
      rcases List.mem_append.mp hx2 with h | h
      · apply j3
        rw [hh]
        exact h
      · rw [List.mem_singleton.mp h]
        exact j4 (by rw [hh]; exact List.cons_ne_nil a tl)
  · show (List.drop ((s.history ++ [s.last_raised_time]).length - 10)
        (s.history ++ [s.last_raised_time])).length ≤ 10
    have h1 := List.length_drop
      ((s.history ++ [s.last_raised_time]).length - 10)
      (s.history ++ [s.last_raised_time])
    have h2 : (s.history ++ [s.last_raised_time]).length = s.history.length + 1 := by
      simp
    omega

end Code


namespace Code

/-- `Timer.snooze` preserves the loop invariant. -/
theorem snooze_J (s : TimerS) (now : ℚ) (hJ : Jinv s) :
    Jinv (Timer.snooze s now) := by
  unfold Timer.snooze
  dsimp only
  by_cases hr : Lid.raised s.lid = true
  · rw [if_pos hr]
    have hJ1 : Jinv (Timer.undo s true).1 := undo_J s true hJ
    split
    · rename_i hlt
      cases hg : s.history.getLast? with
      | none =>
        have hu : (Timer.undo s true).2 = none := by
          unfold Timer.undo
          rw [hg]
        rw [hu]
        exact hJ1
      | some last =>
        have hu : (Timer.undo s true).2 = some s.last_raised_time := by
          unfold Timer.undo
          rw [hg]
        have hne : s.history ≠ [] := by
          intro he
          rw [he] at hg
          exact absurd hg (by simp)
        have hpos : 0 < s.last_raised_time := hJ.2.2.2.1 hne
        rw [hu]
        dsimp only
        rw [if_neg (by exact ne_of_gt hpos)]
        apply record_time_J _ now _ hJ1
        show 0 < (if s.last_raised_time = 0 then now else s.last_raised_time)
        rw [if_neg (ne_of_gt hpos)]
        exact hpos
    · rename_i hge
      have h1 : 0 ≤ (Timer.undo s true).1.last_raised_time := hJ1.1
      have h2 : qsub now (Timer.undo s true).1.last_raised_time ≥ alarm_threshold_ms :=
        le_of_not_lt hge
      rw [qsub_eq] at h2
      have hv : 0 < qsub now (qsub alarm_threshold_ms one_hour_ms) := by
        rw [qsub_eq, qsub_eq, alarm_threshold_ms, one_hour_ms]
        rw [alarm_threshold_ms] at h2
        linarith
      have hrec : Jinv (Timer.record_time (Timer.undo s true).1 now
          (some (qsub now (qsub alarm_threshold_ms one_hour_ms)))) := by
        apply record_time_J _ now _ hJ1
        show 0 < (if qsub now (qsub alarm_threshold_ms one_hour_ms) = 0 then now
          else qsub now (qsub alarm_threshold_ms one_hour_ms))
        rw [if_neg (ne_of_gt hv)]
        exact hv
      exact hrec
  · rw [if_neg hr]
    dsimp only
    split
    · exact hJ
    · rename_i hge
      have h2 : qsub now s.last_raised_time ≥ alarm_threshold_ms := le_of_not_lt hge
      rw [qsub_eq] at h2
      have hv : 0 < qsub now (qsub alarm_threshold_ms one_hour_ms) := by
        rw [qsub_eq, qsub_eq, alarm_threshold_ms, one_hour_ms]
        rw [alarm_threshold_ms] at h2
        have := hJ.1
        linarith
      have hrec : Jinv (Timer.record_time s now
          (some (qsub now (qsub alarm_threshold_ms one_hour_ms)))) := by
        apply record_time_J _ now _ hJ
        show 0 < (if qsub now (qsub alarm_threshold_ms one_hour_ms) = 0 then now
          else qsub now (qsub alarm_threshold_ms one_hour_ms))
        rw [if_neg (ne_of_gt hv)]
        exact hv
      exact hrec

/-- `Timer.handle_buttons` preserves the loop invariant. -/
theorem handle_buttons_J (s : TimerS) (ap bp : Bool) (now : ℚ) (hJ : Jinv s) :
    Jinv (Timer.handle_buttons s ap bp now) := by
  simp only [Timer.handle_buttons]
  split
  · split
    · exact snooze_J _ _ (undo_J _ _ (by exact hJ))
    · exact snooze_J _ _ (by exact hJ)
  · split
    · exact undo_J _ _ (by exact hJ)
    · exact (by exact hJ)

end Code


/-- The debounce step leaves the pending candidate empty, untouched, or
freshly set at the current tick's timestamp. -/
theorem core_pending (l : LidS) (cur : LidState) (now : ℚ) :
    (updateStateCore l cur now).pending = none ∨
    (updateStateCore l cur now).pending = l.pending ∨
    (updateStateCore l cur now).pending = some (cur, now) := by
  unfold updateStateCore
  repeat' split
  all_goals simp

namespace Code

/-- One full iteration of the polling loop preserves the invariant,
provided the tick's timestamp is nonnegative. -/
theorem tick_J (s : TimerS) (gx gy gz : ℚ) (ap bp sw : Bool) (now : ℚ)
    (hJ : Jinv s) (hnow : 0 ≤ now) :
    Jinv (Timer.call s gx gy gz ap bp sw now) := by
  unfold Timer.call
  cases hlid : Lid.call s.lid gx gy gz now with
  | error e => exact hJ
  | ok p =>
    dsimp only
    obtain ⟨r, l'⟩ := p
    obtain ⟨cur, hc, hr, hl'⟩ := lid_call_ok_inv s.lid gx gy gz now r l' hlid
    have hpend : pending_ok l'.pending := by
      rw [hl']
      show pending_ok (updateStateCore s.lid cur now).pending
      intro c pt he
      rcases core_pending s.lid cur now with h | h | h
      · rw [h] at he
        exact absurd he (by simp)
      · rw [h] at he
        exact hJ.2.2.2.2.2.1 c pt he
      · rw [h] at he
        injection he with he2
        injection he2 with he3 he4
        rw [← he4]
        exact hnow
    have hns : l'.newState = none := by
      rw [hl']
    have hJ2 : Jinv { s with lid := l' } :=
      ⟨hJ.1, hJ.2.1, hJ.2.2.1, hJ.2.2.2.1, hJ.2.2.2.2.1, hpend, hns⟩
    cases r with
    | false =>
      rw [if_neg (by simp)]
      exact handle_buttons_J _ _ _ _ (update_lights_J _ _ _ hJ2)
    | true =>
      rw [if_pos (by simp)]
      have hpos : 0 < now := by
        have hns2 : (updateStateCore s.lid cur now).newState = some LidState.RAISED := by
          have := hr.symm
          simpa using this
        by_cases hst : (updateStateCore s.lid cur now).state = s.lid.state
        · rw [core_newState_of_state_eq s.lid cur now hst, hJ.2.2.2.2.2.2] at hns2
          exact absurd hns2 (by simp)
        · obtain ⟨-, pt, hp, hd, -, -⟩ := core_state_change s.lid cur now hst
          have hpt : 0 ≤ pt := hJ.2.2.2.2.2.1 cur pt hp
          rw [qsub_eq, debounce_threshold_ms] at hd
          linarith
      apply handle_buttons_J
      apply update_lights_J
      apply record_time_J _ now none _
      · show 0 < now
        exact hpos
      · exact ⟨hJ2.1, hJ2.2.1, hJ2.2.2.1, hJ2.2.2.2.1, hJ2.2.2.2.2.1, hJ2.2.2.2.2.2.1,
          hJ2.2.2.2.2.2.2⟩

/-- The states reachable by the polling loop from power-on, with
monotone-clock inputs abstracted to arbitrary nonnegative tick
timestamps. -/
inductive Reach : TimerS → Prop where
  | init (t0 : ℚ) : 0 ≤ t0 → Reach (Timer.init t0)
  | step (s : TimerS) (gx gy gz : ℚ) (ap bp sw : Bool) (now : ℚ) :
      Reach s → 0 ≤ now → Reach (Timer.call s gx gy gz ap bp sw now)

/-- Every reachable state satisfies the loop invariant. -/
theorem reach_J (s : TimerS) (h : Reach s) : Jinv s := by
  induction h with
  | init t0 h0 => exact init_J t0 h0
  | step s gx gy gz ap bp sw now hs hnow ih => exact tick_J s gx gy gz ap bp sw now ih hnow

end Code


namespace Code

/-- C9: the undo history never exceeds 10 entries in any reachable state;
recording a new baseline produces a history of length
`min (old length + 1) 10`; and recording when the history already holds
10 entries evicts the oldest entry, appends the new entry and preserves
the order of the remaining nine. -/
theorem c9_history_capacity :
    (∀ s : TimerS, Reach s → s.history.length ≤ 10) ∧
    (∀ (s : TimerS) (now : ℚ) (v : Option ℚ),
       (Timer.record_time s now v).history.length = min (s.history.length + 1) 10) ∧
    (∀ (s : TimerS) (now : ℚ) (v : Option ℚ), s.history.length = 10 →
       (Timer.record_time s now v).history
         = s.history.tail ++ [s.last_raised_time]) := by
  refine ⟨fun s h => (reach_J s h).2.2.2.2.1, ?_, ?_⟩
  · intro s now v
    show (List.drop ((s.history ++ [s.last_raised_time]).length - 10)
        (s.history ++ [s.last_raised_time])).length = min (s.history.length + 1) 10
    rw [List.length_drop]
    have h2 : (s.history ++ [s.last_raised_time]).length = s.history.length + 1 := by
      simp
    omega
  · intro s now v h10
    show List.drop ((s.history ++ [s.last_raised_time]).length - 10)
        (s.history ++ [s.last_raised_time])
      = s.history.tail ++ [s.last_raised_time]
    have h2 : (s.history ++ [s.last_raised_time]).length - 10 = 1 := by
      simp [h10]
    rw [h2, List.drop_append_of_le_length (by omega), List.drop_one]

end Code

/-- Witness for `Code.c9_history_capacity`: pushing an 11th entry onto a
full history evicts the oldest and keeps the order of the rest. -/
theorem c9_history_capacity_witness :
    (Code.Timer.record_time
        { Code.Timer.init 0 with
            history := [1, 2, 3, 4, 5, 6, 7, 8, 9, 10], last_raised_time := 11 }
        12 none).history
      = [2, 3, 4, 5, 6, 7, 8, 9, 10, 11] := by
  have h := Code.c9_history_capacity.2.2
    { Code.Timer.init 0 with
        history := [1, 2, 3, 4, 5, 6, 7, 8, 9, 10], last_raised_time := 11 }
    12 none (by decide)
  rw [h]
  decide


namespace Code

/-- A quiet undo never plays audible feedback. -/
theorem undo_quiet_played (s : TimerS) : (Timer.undo s true).1.played = s.played := by
  unfold Timer.undo
  cases s.history.getLast? <;> simp

/-- C5: snooze semantics on every state satisfying the loop invariant
(which holds in every reachable state, first conjunct).  If the lid is
raised, snooze first performs an undo with audible feedback suppressed;
then, if elapsed time since the resulting baseline is below the alarm
threshold, the discarded baseline is re-pushed so that baseline and
history are restored to their exact pre-snooze values and nothing else
happens (`Timer.snooze s now = s`); otherwise the current baseline is
pushed into history, the baseline becomes
`now - (alarm_threshold - one_hour)` — leaving exactly one unit interval
of grace before the next alarm — and the snooze feedback is emitted. -/
theorem c5_snooze :
    (∀ s : TimerS, Reach s → Jinv s) ∧
    (∀ s : TimerS, (Timer.undo s true).1.played = s.played) ∧
    (∀ (s : TimerS) (now : ℚ), Jinv s →
      ((Lid.raised s.lid = false ∨ s.history = []) →
        (qsub now s.last_raised_time < alarm_threshold_ms → Timer.snooze s now = s) ∧
        (¬ qsub now s.last_raised_time < alarm_threshold_ms →
          Timer.snooze s now = { s with
            history := (s.history ++ [s.last_raised_time]).drop
                ((s.history ++ [s.last_raised_time]).length - 10),
            last_raised_time := qsub now (qsub alarm_threshold_ms one_hour_ms),
            played := s.played ++ [Sound.snoozeWav] } ∧
          qsub now (Timer.snooze s now).last_raised_time
            = qsub alarm_threshold_ms one_hour_ms)) ∧
      (Lid.raised s.lid = true → s.history ≠ [] →
        (qsub now (Timer.undo s true).1.last_raised_time < alarm_threshold_ms →
          Timer.snooze s now = s) ∧
        (¬ qsub now (Timer.undo s true).1.last_raised_time < alarm_threshold_ms →
          Timer.snooze s now = { (Timer.undo s true).1 with
            history := ((Timer.undo s true).1.history
                ++ [(Timer.undo s true).1.last_raised_time]).drop
                (((Timer.undo s true).1.history
                  ++ [(Timer.undo s true).1.last_raised_time]).length - 10),
            last_raised_time := qsub now (qsub alarm_threshold_ms one_hour_ms),
            played := s.played ++ [Sound.snoozeWav] } ∧
          qsub now (Timer.snooze s now).last_raised_time
            = qsub alarm_threshold_ms one_hour_ms))) := by
  refine ⟨reach_J, undo_quiet_played, ?_⟩
  intro s now hJ
  constructor
  · -- lid not raised, or raised with empty history: the undo is a no-op
    intro hA
    have hid : (if Lid.raised s.lid = true then Timer.undo s true else (s, none))
        = (s, none) := by
      rcases hA with h | h
      · rw [h]
        simp
      · by_cases hr : Lid.raised s.lid = true
        · rw [if_pos hr]
          unfold Timer.undo
          rw [h]
          rfl
        · rw [if_neg hr]
    constructor
    · intro hlt
      unfold Timer.snooze
      rw [hid]
      dsimp only
      rw [if_pos hlt]
    · intro hge
      unfold Timer.snooze
      rw [hid]
      dsimp only
      rw [if_neg hge]
      have h2 : alarm_threshold_ms ≤ qsub now s.last_raised_time := le_of_not_lt hge
      rw [qsub_eq, alarm_threshold_ms] at h2
      have hv : 0 < qsub now (qsub alarm_threshold_ms one_hour_ms) := by
        rw [qsub_eq, qsub_eq, alarm_threshold_ms, one_hour_ms]
        have := hJ.1
        linarith
      constructor
      · unfold Timer.record_time
        dsimp only
        rw [if_neg (ne_of_gt hv)]
      · unfold Timer.record_time
        dsimp only
        rw [if_neg (ne_of_gt hv)]
        simp only [qsub_eq]
        ring
  · -- lid raised with nonempty history: a real undo runs first
    intro hr hne
    cases hg : s.history.getLast? with
    | none =>
      rw [List.getLast?_eq_none_iff] at hg
      exact absurd hg hne
    | some last =>
      have hs1 : (Timer.undo s true).1
          = { s with last_raised_time := last, history := s.history.dropLast } := by
        unfold Timer.undo
        rw [hg]
        simp
      have hu2 : (Timer.undo s true).2 = some s.last_raised_time := by
        unfold Timer.undo
        rw [hg]
      have hpos : 0 < s.last_raised_time := hJ.2.2.2.1 hne
      have hid : (if Lid.raised s.lid = true then Timer.undo s true else (s, none))
          = Timer.undo s true := by
        rw [if_pos hr]
      constructor
      · intro hlt
        unfold Timer.snooze
        rw [hid]
        dsimp only
        rw [hu2]
        dsimp only
        rw [if_pos hlt, if_neg (ne_of_gt hpos)]
        rw [hs1]
        unfold Timer.record_time
        dsimp only
        rw [if_neg (ne_of_gt hpos)]
        have hrest : s.history.dropLast ++ [last] = s.history :=
          List.dropLast_append_getLast? last (Option.mem_def.mpr hg)
        rw [hrest]
        have hlen : s.history.length - 10 = 0 := by
          have := hJ.2.2.2.2.1
          omega
        rw [hlen, List.drop_zero]
      · intro hge
        unfold Timer.snooze
        rw [hid]
        dsimp only
        rw [hu2]
        dsimp only
        rw [if_neg hge]
        have h1 : 0 ≤ (Timer.undo s true).1.last_raised_time := (undo_J s true hJ).1
        have h2 : alarm_threshold_ms ≤ qsub now (Timer.undo s true).1.last_raised_time :=
          le_of_not_lt hge
        rw [qsub_eq, alarm_threshold_ms] at h2
        have hv : 0 < qsub now (qsub alarm_threshold_ms one_hour_ms) := by
          rw [qsub_eq, qsub_eq, alarm_threshold_ms, one_hour_ms]
          linarith
        constructor
        · unfold Timer.record_time
          dsimp only
          rw [if_neg (ne_of_gt hv)]
          rw [undo_quiet_played]
        · unfold Timer.record_time
          dsimp only
          rw [if_neg (ne_of_gt hv)]
          simp only [qsub_eq]
          ring

end Code

/-- Witness for `Code.c5_snooze`: at the initial state (baseline 5) a
snooze at time 6 is within the alarm window and is a complete no-op, and
the invariant itself holds at a reachable state. -/
theorem c5_snooze_witness :
    Code.Jinv (Code.Timer.init 0) ∧
    Code.Timer.snooze (Code.Timer.init 5) 6 = Code.Timer.init 5 :=
  ⟨Code.c5_snooze.1 (Code.Timer.init 0) (Code.Reach.init 0 (by norm_num)),
   ((Code.c5_snooze.2.2 (Code.Timer.init 5) 6 (by decide)).1
      (Or.inl (by decide))).1 (by decide)⟩
